import Mathlib

/-!
# Verification of the `cloud-native-streaming` chat client

Shallow embedding of the repository's message path:

* `src/app/writer.py`  — `MyWriter._format_message`, `MyWriter.write`
* `src/app/reader.py`  — `MyReader._greet`, `MyReader._tell_joke`,
  `MyReader._process_message`, `MyReader.read`, `MyReader.close`
* `src/app/chatter.py` — `MyChatter.read` (read loop), `MyChatter.write` (write loop)

Python strings are modelled as Lean `String`/`List Char`.  `str.strip()` /
`str.lower()` are modelled on ASCII (`pyStrip`, `Char.toLower`): the claims at
hand only involve ASCII data.  `json.dumps` (via pydantic's `.json()`) and
`json.loads` are modelled by an executable JSON codec over a `Json` value type
covering objects, strings (with the standard escapes), integers, booleans,
null and arrays; JSON floats are outside the model (no claim mentions them).
-/

/-- JSON values, as produced by `json.loads` (restricted to the subset the
claims exercise: no floating point numbers). -/
inductive Json where
  | str (s : String)
  | num (n : Int)
  | bool (b : Bool)
  | null
  | arr (elems : List Json)
  | obj (members : List (String × Json))

/-- Python whitespace stripped by `str.strip()` (ASCII part). -/
def isPyWs (c : Char) : Bool :=
  c = ' ' || c = '\t' || c = '\n' || c = '\r' || c = '\x0b' || c = '\x0c'

/-- Model of `str.strip()` on the character list: drop leading and trailing whitespace. -/
def pyStrip (l : List Char) : List Char :=
  ((l.dropWhile isPyWs).reverse.dropWhile isPyWs).reverse

/-- Model of `str.lower()` on the character list (ASCII case mapping). -/
def pyLower (l : List Char) : List Char := l.map Char.toLower

/-- Model of `s.strip().lower()` as used by `reader.py` line 41 and `chatter.py` line 54. -/
def pyNormalize (s : String) : String := String.mk (pyLower (pyStrip s.data))

/-- Hex digit emitted by `json.dumps` in a `\u00XX` escape (lowercase, as
CPython's `py_encode_basestring_ascii` emits). -/
def hexDigit (n : Nat) : Char :=
  if n < 10 then Char.ofNat (48 + n) else Char.ofNat (87 + n)

/-- Escaping of one character by `json.dumps` (CPython `ESCAPE_DCT`):
`"`, `\`, and the control characters; everything else is emitted verbatim. -/
def escChar (c : Char) : List Char :=
  if c = '"' then ['\\', '"']
  else if c = '\\' then ['\\', '\\']
  else if c = '\n' then ['\\', 'n']
  else if c = '\t' then ['\\', 't']
  else if c = '\r' then ['\\', 'r']
  else if c = '\x08' then ['\\', 'b']
  else if c = '\x0c' then ['\\', 'f']
  else if c.toNat < 32 then
    ['\\', 'u', '0', '0', hexDigit (c.toNat / 16), hexDigit (c.toNat % 16)]
  else [c]

/-- Escape a whole string body for a JSON string literal. -/
def jsonEscape (l : List Char) : List Char := l.flatMap escChar

/-- The characters `"sender": "` opening the first member of the envelope. -/
def senderKeyChars : List Char :=
  '"' :: 's' :: 'e' :: 'n' :: 'd' :: 'e' :: 'r' :: '"' :: ':' :: ' ' :: '"' :: []

/-- The characters `", "message": "` between the two member values. -/
def messageKeyChars : List Char :=
  '"' :: ',' :: ' ' :: '"' :: 'm' :: 'e' :: 's' :: 's' :: 'a' :: 'g' :: 'e' :: '"' :: ':' :: ' ' :: '"' :: []

/-- The serialized two-key envelope
`\x7b"sender": "<s>", "message": "<m>"\x7d` exactly as
`json.dumps(\x7b"sender": s, "message": m\x7d)` (the output of pydantic's
`.json()` on the two-field `Message`) lays it out, including the separators
`", "` and `": "`. -/
def encodeChars (s m : List Char) : List Char :=
  '\x7b' :: senderKeyChars ++ jsonEscape s ++ messageKeyChars ++ jsonEscape m ++ ['"', '\x7d']

/-- Modelled from the spec: `message.py` (the `Message` class) is not part of
`src/`; spec §3 defines the sole entity as a two-field record with `sender`
and `message` string fields, both required. -/
structure Message where
  sender : String
  message : String
deriving DecidableEq, Repr

/-- The spec's error taxonomy (§7): `DecodeError` for malformed envelopes
(in the Python source: `json.JSONDecodeError`, `KeyError`/`TypeError` on the
missing key, or a `Message` validation failure), `ProviderError` for a failed
external joke lookup (in the Python source: any exception escaping
`requests.get`/response parsing). -/
inductive ProcError where
  | decodeError
  | providerError
deriving DecidableEq, Repr

/-! ## JSON parser (model of `json.loads` on the claims' subset) -/

/-- JSON inter-token whitespace skipped by `json.loads`. -/
def isJsonWs (c : Char) : Bool :=
  c = ' ' || c = '\t' || c = '\n' || c = '\r'

/-- Skip JSON whitespace. -/
def skipWs (l : List Char) : List Char := l.dropWhile isJsonWs

/-- Value of one hex digit, as accepted in a `\uXXXX` escape. -/
def hexDigToNat (c : Char) : Option Nat :=
  if '0' ≤ c ∧ c ≤ '9' then some (c.toNat - 48)
  else if 'a' ≤ c ∧ c ≤ 'f' then some (c.toNat - 87)
  else if 'A' ≤ c ∧ c ≤ 'F' then some (c.toNat - 55)
  else none

/-- Combine four hex digits of a `\uXXXX` escape. -/
def hex4 (a b c d : Char) : Option Nat :=
  match hexDigToNat a, hexDigToNat b, hexDigToNat c, hexDigToNat d with
  | some x, some y, some z, some w => some (4096 * x + 256 * y + 16 * z + w)
  | _, _, _, _ => none

/-- The character denoted by a one-letter JSON escape. -/
def unescChar (c : Char) : Option Char :=
  if c = '"' then some '"'
  else if c = '\\' then some '\\'
  else if c = '/' then some '/'
  else if c = 'n' then some '\n'
  else if c = 't' then some '\t'
  else if c = 'r' then some '\r'
  else if c = 'b' then some '\x08'
  else if c = 'f' then some '\x0c'
  else none

/-- Parse the body of a JSON string literal (after the opening quote) up to
and including the closing quote, returning the decoded characters and the
remaining input.  Raw control characters are rejected, as in `json.loads`
strict mode. -/
def parseStrBody : List Char → Option (List Char × List Char)
  | [] => none
  | c :: rest =>
    if c = '"' then some ([], rest)
    else if c = '\\' then
      match rest with
      | [] => none
      | e :: rest2 =>
        if e = 'u' then
          match rest2 with
          | h1 :: h2 :: h3 :: h4 :: rest3 =>
            match hex4 h1 h2 h3 h4, parseStrBody rest3 with
            | some n, some (s, r) => some (Char.ofNat n :: s, r)
            | _, _ => none
          | _ => none
        else
          match unescChar e, parseStrBody rest2 with
          | some u, some (s, r) => some (u :: s, r)
          | _, _ => none
    else if c.toNat < 32 then none
    else
      match parseStrBody rest with
      | some (s, r) => some (c :: s, r)
      | none => none

/-- Accumulate decimal digits into a natural number. -/
def digitsToNat : List Char → Nat → Nat
  | [], acc => acc
  | c :: rest, acc => digitsToNat rest (acc * 10 + (c.toNat - 48))

/-- Parse a JSON integer (optional minus sign followed by digits). -/
def parseNumber (l : List Char) : Option (Json × List Char) :=
  let p := match l with
    | c :: rest => if c = '-' then (true, rest) else (false, l)
    | [] => (false, l)
  let ds := p.2.takeWhile Char.isDigit
  let rest := p.2.dropWhile Char.isDigit
  if ds.isEmpty then none
  else
    let n : Int := Int.ofNat (digitsToNat ds 0)
    some (.num (if p.1 then -n else n), rest)

/-- Match a literal keyword tail (`rue`, `alse`, `ull`). -/
def expectLit : List Char → List Char → Option (List Char)
  | [], l => some l
  | c :: cs, d :: l => if c = d then expectLit cs l else none
  | _ :: _, [] => none

mutual

/-- Recursive-descent JSON value parser; `fuel` bounds the recursion into
nested structures and is instantiated with more than the input length. -/
def parseValue : Nat → List Char → Option (Json × List Char)
  | 0, _ => none
  | fuel + 1, l =>
    match l with
    | [] => none
    | c :: rest =>
      if c = '"' then
        match parseStrBody rest with
        | some (s, r) => some (.str (String.mk s), r)
        | none => none
      else if c = '\x7b' then
        match skipWs rest with
        | [] => none
        | d :: r2 =>
          if d = '\x7d' then some (.obj [], r2)
          else
            match parseMembers fuel (d :: r2) with
            | some (kvs, r) => some (.obj kvs, r)
            | none => none
      else if c = '[' then
        match skipWs rest with
        | [] => none
        | d :: r2 =>
          if d = ']' then some (.arr [], r2)
          else
            match parseElems fuel (d :: r2) with
            | some (vs, r) => some (.arr vs, r)
            | none => none
      else if c = 't' then
        match expectLit ['r', 'u', 'e'] rest with
        | some r => some (.bool true, r)
        | none => none
      else if c = 'f' then
        match expectLit ['a', 'l', 's', 'e'] rest with
        | some r => some (.bool false, r)
        | none => none
      else if c = 'n' then
        match expectLit ['u', 'l', 'l'] rest with
        | some r => some (.null, r)
        | none => none
      else parseNumber l

/-- Parse the members of a JSON object after its opening brace (first
character is expected to be the quote of the first key). -/
def parseMembers : Nat → List Char → Option (List (String × Json) × List Char)
  | 0, _ => none
  | fuel + 1, l =>
    match l with
    | [] => none
    | c :: rest =>
      if c = '"' then
        match parseStrBody rest with
        | some (k, r1) =>
          match skipWs r1 with
          | [] => none
          | d :: r2 =>
            if d = ':' then
              match parseValue fuel (skipWs r2) with
              | some (v, r3) =>
                match skipWs r3 with
                | [] => none
                | e :: r4 =>
                  if e = ',' then
                    match parseMembers fuel (skipWs r4) with
                    | some (kvs, r5) => some ((String.mk k, v) :: kvs, r5)
                    | none => none
                  else if e = '\x7d' then some ([(String.mk k, v)], r4)
                  else none
              | none => none
            else none
        | none => none
      else none

/-- Parse the elements of a JSON array after its opening bracket. -/
def parseElems : Nat → List Char → Option (List Json × List Char)
  | 0, _ => none
  | fuel + 1, l =>
    match parseValue fuel l with
    | some (v, r1) =>
      match skipWs r1 with
      | [] => none
      | e :: r2 =>
        if e = ',' then
          match parseElems fuel (skipWs r2) with
          | some (vs, r3) => some (v :: vs, r3)
          | none => none
        else if e = ']' then some ([v], r2)
        else none
    | none => none

end

/-- Model of `json.loads`: parse one document, allowing surrounding
whitespace, and reject trailing garbage. -/
def jsonLoads (s : String) : Option Json :=
  match parseValue (s.data.length + 1) (skipWs s.data) with
  | some (j, rest) => if skipWs rest = [] then some j else none
  | none => none

/-- Look up a key in a parsed object; as in a Python `dict` built by
`json.loads`, a repeated key keeps its last value. -/
def lookupLast (k : String) : List (String × Json) → Option Json
  | [] => none
  | (k', v) :: rest =>
    match lookupLast k rest with
    | some v' => some v'
    | none => if k' = k then some v else none

/-- Model of `jsonify[k]` followed by the `Message` field validation: the value must
exist and be a string (spec §3: both fields present as strings). -/
def Json.getStr (j : Json) (k : String) : Option String :=
  match j with
  | .obj kvs =>
    match lookupLast k kvs with
    | some (.str s) => some s
    | _ => none
  | _ => none

/-! ## `writer.py` -/

namespace MyWriter

/-- Model of `MyWriter._format_message` (`writer.py` lines 15–26):
`Message(sender=self.id, message=message).json()`. -/
def formatMessage (id message : String) : String :=
  String.mk (encodeChars id.data message.data)

end MyWriter

/-! ## `reader.py` -/

namespace MyReader

/-- Model of `MyReader._greet` (`reader.py` lines 24–25). -/
def greet (sender : String) : String := sender ++ " says hi!"

/-- Model of `MyReader._tell_joke` (`reader.py` lines 18–22): the external joke
provider is a parameter delivering either a `(setup, punchline)` record or a
failure; on success the two lines are newline-joined, a failure propagates
(there is no handler in `_tell_joke`). -/
def tellJoke (provider : Except Unit (String × String)) : Except ProcError String :=
  match provider with
  | .ok sp => .ok (sp.1 ++ "\n" ++ sp.2)
  | .error _ => .error .providerError

/-- Lines 40–44 of `MyReader._process_message`: utf-8 decode each fragment,
join, `strip().lower()`, `json.loads`, then build the `Message` from the
`sender` and `message` keys.  Any failure in this prefix is a decode error. -/
def decodeEnvelope (buff : List String) : Except ProcError Message :=
  let stringify := pyNormalize (String.join buff)
  match jsonLoads stringify with
  | none => .error .decodeError
  | some jsonify =>
    match jsonify.getStr "sender", jsonify.getStr "message" with
    | some s, some m => .ok (Message.mk s m)
    | _, _ => .error .decodeError

/-- Model of `MyReader._process_message` (`reader.py` lines 27–61): decode the batch,
drop our own messages, resolve the `greet`/`joke` commands, otherwise echo,
and label the response with the incoming sender. -/
def processMessage (id : String) (provider : Except Unit (String × String))
    (buff : List String) : Except ProcError (Option Message) :=
  match decodeEnvelope buff with
  | .error e => .error e
  | .ok incoming =>
    if incoming.sender = id then .ok none
    else
      let msgE : Except ProcError String :=
        if incoming.message = "greet" then .ok (greet incoming.sender)
        else if incoming.message = "joke" then tellJoke provider
        else .ok incoming.message
      match msgE with
      | .ok msg => .ok (some (Message.mk incoming.sender msg))
      | .error e => .error e

/-- Outcome of one call to `MyReader.read`: either a normal return (`none`
models Python's implicit `None`) or an exception escaping the call. -/
inductive ReadOutcome where
  | returns (resp : Option Message)
  | raises
deriving DecidableEq, Repr

/-- Model of `MyReader.read` (`reader.py` lines 69–89).  The broker interaction is a
parameter: either the fragments of one segment slice or a broker-level
failure.  The `except` block at line 88 calls `logging.error`, but
`reader.py` never imports `logging`, so the handler itself raises
`NameError`, which escapes `read` — hence every caught error turns into
`.raises`, not into a logged `None`. -/
def read (id : String) (provider : Except Unit (String × String))
    (broker : Except Unit (List String)) : ReadOutcome :=
  match broker with
  | .error _ => .raises
  | .ok buff =>
    if buff.isEmpty then .returns none
    else
      match processMessage id provider buff with
      | .ok r => .returns r
      | .error _ => .raises

end MyReader

/-! ## `chatter.py` -/

namespace MyChatter

/-- One iteration of the write loop (`chatter.py` lines 52–56):
`message = input(...).strip().lower()`, and `self.writer.write(message)` only
when the stripped result is truthy (non-empty).  The returned value is the
serialized event handed to the broker's `write_event`, if any. -/
def writeCycle (id line : String) : Option String :=
  let message := pyNormalize line
  if message = "" then none else some (MyWriter.formatMessage id message)

/-- Events of the read loop (`chatter.py` lines 30–46), at the granularity
the shutdown claim speaks about: the `while(self.running)` condition check,
the blocking broker read inside `self.reader.read()`, and the
`reader_offline` release inside `self.reader.close()`. -/
inductive LoopEvent where
  | check (running : Bool)
  | brokerRead
  | releaseReader
deriving DecidableEq, Repr

/-- The event trace of the read loop when the `running` flag is observed
`true` at the first `n` condition checks and `false` at the next one: each
iteration is a check followed by one blocking read, and after the loop exits
`self.reader.close()` releases the reader.  (Cycles are modelled as
completing normally; an in-cycle exception is claim C8's concern.) -/
def readLoopTrace : Nat → List LoopEvent
  | 0 => [.check false, .releaseReader]
  | n + 1 => .check true :: .brokerRead :: readLoopTrace n

end MyChatter

/-! ## Claim theorems -/

/-- C2: Self-echo suppression — for every batch whose decoded `sender` field
equals the processing client's local id, `_process_message` returns `None`
(no response), whatever the `message` field is; this is the normal `.ok none`
outcome, not an error. -/
theorem c2_self_echo_suppression (id : String) (prov : Except Unit (String × String))
    (buff : List String) (incoming : Message)
    (h : MyReader.decodeEnvelope buff = .ok incoming) (hs : incoming.sender = id) :
    MyReader.processMessage id prov buff = .ok none := by
  simp [MyReader.processMessage, h, hs]

/-- Witness for C2: a `"joke"` message sent by `"tim"` himself is dropped. -/
theorem c2_self_echo_suppression_witness :
    MyReader.processMessage "tim" (.error ()) [MyWriter.formatMessage "tim" "joke"] = .ok none :=
  c2_self_echo_suppression "tim" (.error ()) _ (Message.mk "tim" "joke") (by rfl) rfl

/-- C3: Sender labeling — every response `_process_message` produces carries
as its `sender` the incoming message's sender (never the processing client's
own id, since the self-filter already fired). -/
theorem c3_sender_labeling (id : String) (prov : Except Unit (String × String))
    (buff : List String) (resp : Message)
    (h : MyReader.processMessage id prov buff = .ok (some resp)) :
    ∃ incoming, MyReader.decodeEnvelope buff = .ok incoming ∧
      resp.sender = incoming.sender ∧ resp.sender ≠ id := by
  unfold MyReader.processMessage at h
  cases hdec : MyReader.decodeEnvelope buff with
  | error e => rw [hdec] at h; exact absurd h (by simp)
  | ok incoming =>
    rw [hdec] at h
    simp only at h
    by_cases hself : incoming.sender = id
    · rw [if_pos hself] at h; exact absurd h (by simp)
    · rw [if_neg hself] at h
      split at h
      · rename_i msg heq
        simp only [Except.ok.injEq, Option.some.injEq] at h
        refine ⟨incoming, rfl, ?_, ?_⟩
        · rw [← h]
        · rw [← h]; exact hself
      · simp at h

/-- Witness for C3: the greet reply to `"alex"` is labeled `"alex"`. -/
theorem c3_sender_labeling_witness :
    ∃ incoming,
      MyReader.decodeEnvelope [MyWriter.formatMessage "alex" "greet"] = .ok incoming ∧
      (Message.mk "alex" "alex says hi!").sender = incoming.sender ∧
      (Message.mk "alex" "alex says hi!").sender ≠ "tim" :=
  c3_sender_labeling "tim" (.error ()) [MyWriter.formatMessage "alex" "greet"]
    (Message.mk "alex" "alex says hi!") (by rfl)

/-- C4: Greet command resolution — concretely, the batch encoding
`("alex", "greet")` processed with local id `"tim"` yields exactly
`("alex", "alex says hi!")`; generally, whenever the decoded message is the
exact text `"greet"` and the sender differs from the local id, the response
message is `"<sender> says hi!"`. -/
theorem c4_greet_resolution :
    (∀ prov, MyReader.processMessage "tim" prov [MyWriter.formatMessage "alex" "greet"]
      = .ok (some (Message.mk "alex" "alex says hi!"))) ∧
    (∀ id prov buff s, MyReader.decodeEnvelope buff = .ok (Message.mk s "greet") → s ≠ id →
      MyReader.processMessage id prov buff = .ok (some (Message.mk s (s ++ " says hi!")))) := by
  constructor
  · intro prov
    simp [MyReader.processMessage, show MyReader.decodeEnvelope [MyWriter.formatMessage "alex" "greet"]
      = .ok (Message.mk "alex" "greet") from rfl, MyReader.greet]
  · intro id prov buff s h hs
    simp [MyReader.processMessage, h, hs, MyReader.greet]

/-- Witness for C4: the concrete half, instantiated at a failing provider
(the greet path never consults the provider). -/
theorem c4_greet_resolution_witness :
    MyReader.processMessage "tim" (.error ()) [MyWriter.formatMessage "alex" "greet"]
      = .ok (some (Message.mk "alex" "alex says hi!")) :=
  c4_greet_resolution.1 (.error ())

/-- C5: Identity passthrough after normalization — concretely,
`("alex", "hello there")` with local id `"tim"` yields
`("alex", "hello there")`; generally, when the decoded (fragment-joined,
utf-8, stripped, lower-cased) batch has sender ≠ local id and a message that
is neither `"greet"` nor `"joke"`, the response message is exactly that
decoded message text. -/
theorem c5_passthrough :
    (∀ prov, MyReader.processMessage "tim" prov [MyWriter.formatMessage "alex" "hello there"]
      = .ok (some (Message.mk "alex" "hello there"))) ∧
    (∀ id prov buff s m, MyReader.decodeEnvelope buff = .ok (Message.mk s m) → s ≠ id →
      m ≠ "greet" → m ≠ "joke" →
      MyReader.processMessage id prov buff = .ok (some (Message.mk s m))) := by
  constructor
  · intro prov
    simp [MyReader.processMessage, show MyReader.decodeEnvelope [MyWriter.formatMessage "alex" "hello there"]
      = .ok (Message.mk "alex" "hello there") from rfl]
  · intro id prov buff s m h hs hg hj
    simp [MyReader.processMessage, h, hs, hg, hj]

/-- Witness for C5: the concrete half. -/
theorem c5_passthrough_witness :
    MyReader.processMessage "tim" (.error ()) [MyWriter.formatMessage "alex" "hello there"]
      = .ok (some (Message.mk "alex" "hello there")) :=
  c5_passthrough.1 (.error ())

/-- C6: Malformed input — a batch whose normalized text is not valid JSON,
or whose JSON lacks a usable `sender` or `message` string field, makes the
decode step (and hence `_process_message`) fail with the decode error: no
partial or default `Message` is ever produced. -/
theorem c6_malformed_input (id : String) (prov : Except Unit (String × String))
    (buff : List String)
    (h : jsonLoads (pyNormalize (String.join buff)) = none ∨
      ∃ j, jsonLoads (pyNormalize (String.join buff)) = some j ∧
        (j.getStr "sender" = none ∨ j.getStr "message" = none)) :
    MyReader.decodeEnvelope buff = .error .decodeError ∧
    MyReader.processMessage id prov buff = .error .decodeError := by
  have hdec : MyReader.decodeEnvelope buff = .error .decodeError := by
    rcases h with h | ⟨j, hj, hmiss⟩
    · simp [MyReader.decodeEnvelope, h]
    · simp only [MyReader.decodeEnvelope, hj]
      rcases hmiss with hm | hm
      · simp [hm]
      · cases hs : j.getStr "sender" <;> simp [hs, hm]
  exact ⟨hdec, by simp [MyReader.processMessage, hdec]⟩

/-- Witness for C6: the batch `["notjson"]` is not valid JSON. -/
theorem c6_malformed_input_witness :
    MyReader.decodeEnvelope ["notjson"] = .error .decodeError ∧
    MyReader.processMessage "tim" (.error ()) ["notjson"] = .error .decodeError :=
  c6_malformed_input "tim" (.error ()) ["notjson"] (Or.inl (by rfl))

/-- C7: Joke provider failure propagation — when the decoded batch resolves
the `"joke"` command (sender ≠ local id, message exactly `"joke"`) and the
external provider call fails, `_process_message` fails with the provider
error instead of returning any fallback response. -/
theorem c7_joke_provider_failure (id : String) (buff : List String) (s : String) (e : Unit)
    (h : MyReader.decodeEnvelope buff = .ok (Message.mk s "joke")) (hs : s ≠ id) :
    MyReader.processMessage id (.error e) buff = .error .providerError := by
  simp [MyReader.processMessage, h, hs, MyReader.tellJoke]

/-- Witness for C7: `("alex", "joke")` processed by `"tim"` with a failing
provider. -/
theorem c7_joke_provider_failure_witness :
    MyReader.processMessage "tim" (.error ()) [MyWriter.formatMessage "alex" "joke"]
      = .error .providerError :=
  c7_joke_provider_failure "tim" [MyWriter.formatMessage "alex" "joke"] "alex" ()
    (by rfl) (by decide)

/-- C8 (the claim fails on the code): the `except` handler at `reader.py`
line 88–89 calls `logging.error`, but `reader.py` never imports `logging`,
so the handler itself raises `NameError` and the error escapes
`MyReader.read` instead of being logged and swallowed: an in-cycle decode
error is fatal to the read loop.  Here the malformed batch `["notjson"]`
makes `_process_message` raise, and `read` re-raises instead of returning
`None`. -/
theorem c8_read_error_is_fatal :
    MyReader.read "tim" (.error ()) (.ok ["notjson"]) = .raises ∧
    MyReader.processMessage "tim" (.error ()) ["notjson"] = .error .decodeError ∧
    MyReader.read "tim" (.error ()) (.error ()) = .raises := by
  exact ⟨rfl, rfl, rfl⟩

/-! ## Character-level facts about ASCII lower-casing and whitespace -/

theorem char_toNat_ofNat_of_lt {n : Nat} (h : n < 55296) : (Char.ofNat n).toNat = n := by
  unfold Char.ofNat
  rw [dif_pos (Or.inl h : n.isValidChar)]
  rfl

theorem toLower_toNat (c : Char) :
    (Char.toLower c).toNat = if c.toNat ≥ 65 ∧ c.toNat ≤ 90 then c.toNat + 32 else c.toNat := by
  show (if c.toNat ≥ 65 ∧ c.toNat ≤ 90 then Char.ofNat (c.toNat + 32) else c).toNat = _
  by_cases h : c.toNat ≥ 65 ∧ c.toNat ≤ 90
  · rw [if_pos h, if_pos h]
    exact char_toNat_ofNat_of_lt (by omega)
  · rw [if_neg h, if_neg h]

theorem toLower_eq_self {c : Char} (h : ¬(c.toNat ≥ 65 ∧ c.toNat ≤ 90)) :
    Char.toLower c = c := by
  show (if c.toNat ≥ 65 ∧ c.toNat ≤ 90 then Char.ofNat (c.toNat + 32) else c) = c
  rw [if_neg h]

theorem toLower_idem (c : Char) : Char.toLower (Char.toLower c) = Char.toLower c := by
  apply toLower_eq_self
  rw [toLower_toNat]
  split <;> omega

theorem char_eq_iff_toNat {c d : Char} : c = d ↔ c.toNat = d.toNat :=
  ⟨fun h => h ▸ rfl, fun h => Char.ext (UInt32.ext h)⟩

theorem isPyWs_iff (c : Char) :
    isPyWs c = true ↔ (c.toNat = 32 ∨ c.toNat = 9 ∨ c.toNat = 10 ∨ c.toNat = 13 ∨
      c.toNat = 11 ∨ c.toNat = 12) := by
  simp only [isPyWs, Bool.or_eq_true, decide_eq_true_eq, char_eq_iff_toNat,
    show (' ').toNat = 32 from rfl, show ('\t').toNat = 9 from rfl,
    show ('\n').toNat = 10 from rfl, show ('\r').toNat = 13 from rfl,
    show ('\x0b').toNat = 11 from rfl, show ('\x0c').toNat = 12 from rfl]
  tauto

theorem isPyWs_toLower (c : Char) : isPyWs (Char.toLower c) = isPyWs c := by
  by_cases h : c.toNat ≥ 65 ∧ c.toNat ≤ 90
  · have ht : (Char.toLower c).toNat = c.toNat + 32 := by rw [toLower_toNat, if_pos h]
    rw [Bool.eq_iff_iff, isPyWs_iff, isPyWs_iff, ht]
    omega
  · rw [toLower_eq_self h]

/-! ## Facts about `pyStrip`, `pyLower`, `pyNormalize` -/

theorem dropWhile_idem (p : α → Bool) (l : List α) :
    (l.dropWhile p).dropWhile p = l.dropWhile p := by
  induction l with
  | nil => rfl
  | cons a l ih =>
    by_cases h : p a
    · simp [List.dropWhile_cons, h, ih]
    · simp [List.dropWhile_cons, h]

theorem dropWhile_pyStrip (l : List Char) :
    (pyStrip l).dropWhile isPyWs = pyStrip l := by
  unfold pyStrip
  cases hW : ((l.dropWhile isPyWs).reverse.dropWhile isPyWs).reverse with
  | nil => rfl
  | cons a w =>
    have hpre : a :: w <+: l.dropWhile isPyWs := by
      apply List.reverse_suffix.mp
      rw [← hW, List.reverse_reverse]
      exact ⟨_, List.takeWhile_append_dropWhile _ _⟩
    obtain ⟨t, ht⟩ := hpre
    have hhead : (l.dropWhile isPyWs).head? = some a := by
      rw [← ht]; rfl
    have h1 : isPyWs a = false := by
      have h := List.head?_dropWhile_not isPyWs l
      rw [hhead] at h
      exact h
    simp [List.dropWhile_cons, h1]

theorem pyStrip_idem (l : List Char) : pyStrip (pyStrip l) = pyStrip l := by
  conv_lhs => rw [pyStrip, dropWhile_pyStrip]
  rw [pyStrip, List.reverse_reverse, dropWhile_idem, ← pyStrip]

theorem pyLower_dropWhile (l : List Char) :
    (pyLower l).dropWhile isPyWs = pyLower (l.dropWhile isPyWs) := by
  show (l.map Char.toLower).dropWhile isPyWs = _
  rw [List.dropWhile_map]
  have hp : (isPyWs ∘ Char.toLower) = isPyWs := funext isPyWs_toLower
  rw [hp]
  rfl

theorem pyStrip_pyLower (l : List Char) : pyStrip (pyLower l) = pyLower (pyStrip l) := by
  unfold pyStrip
  rw [pyLower_dropWhile]
  show ((pyLower _).reverse.dropWhile isPyWs).reverse = _
  have hrev : ∀ x : List Char, (pyLower x).reverse = pyLower x.reverse := by
    intro x; simp [pyLower]
  rw [hrev, pyLower_dropWhile, hrev]

theorem pyLower_idem (l : List Char) : pyLower (pyLower l) = pyLower l := by
  show (l.map Char.toLower).map Char.toLower = _
  rw [List.map_map]
  exact List.map_congr_left (fun a _ => toLower_idem a)

theorem pyNormalize_mk (l : List Char) :
    pyNormalize (String.mk l) = String.mk (pyLower (pyStrip l)) := rfl

theorem pyNormalize_idem (s : String) : pyNormalize (pyNormalize s) = pyNormalize s := by
  show pyNormalize (String.mk (pyLower (pyStrip s.data))) = _
  rw [pyNormalize_mk, pyStrip_pyLower, pyStrip_idem, pyLower_idem]
  rfl

/-! ## C9 and C10 -/

theorem readLoopTrace_getLast (n : Nat) :
    (MyChatter.readLoopTrace n).getLast? = some .releaseReader := by
  induction n with
  | zero => rfl
  | succ n ih =>
    obtain ⟨x, xs, hx⟩ : ∃ x xs, MyChatter.readLoopTrace n = x :: xs := by
      cases n <;> exact ⟨_, _, rfl⟩
    rw [MyChatter.readLoopTrace, hx, List.getLast?_cons_cons, List.getLast?_cons_cons, ← hx, ih]

theorem readLoopTrace_count_release (n : Nat) :
    (MyChatter.readLoopTrace n).count MyChatter.LoopEvent.releaseReader = 1 := by
  induction n with
  | zero => rfl
  | succ n ih =>
    rw [MyChatter.readLoopTrace, List.count_cons_of_ne (by simp), List.count_cons_of_ne (by simp)]
    exact ih

/-- C9: Shutdown — in the read-loop trace with `n` iterations, if the
`running` flag is already false from position `p` on (every `check true`
event lies strictly before `p`, i.e. the flag was cleared at point `p` of the
timeline), then at most one blocking broker read occurs from `p` on, the
reader is released exactly once, and the release is the final event. -/
theorem c9_shutdown (n p : Nat)
    (hset : ∀ i, i < (MyChatter.readLoopTrace n).length →
      (MyChatter.readLoopTrace n)[i]? = some (.check true) → i < p) :
    ((MyChatter.readLoopTrace n).drop p).count MyChatter.LoopEvent.brokerRead ≤ 1 ∧
    (MyChatter.readLoopTrace n).count MyChatter.LoopEvent.releaseReader = 1 ∧
    (MyChatter.readLoopTrace n).getLast? = some .releaseReader := by
  refine ⟨?_, readLoopTrace_count_release n, readLoopTrace_getLast n⟩
  induction n generalizing p with
  | zero =>
    calc ((MyChatter.readLoopTrace 0).drop p).count MyChatter.LoopEvent.brokerRead
        ≤ (MyChatter.readLoopTrace 0).count MyChatter.LoopEvent.brokerRead :=
          (List.drop_sublist _ _).count_le _
      _ ≤ 1 := by decide
  | succ n ih =>
    have h0 : 0 < p := by
      refine hset 0 (by simp [MyChatter.readLoopTrace]) ?_
      rw [MyChatter.readLoopTrace]
      rfl
    rcases p with _ | p
    · omega
    rcases p with _ | q
    · -- p = 1 : possible only when n = 0
      cases n with
      | zero => decide
      | succ n' =>
        exfalso
        have h2 := hset 2 (by simp [MyChatter.readLoopTrace]) ?_
        · omega
        · rw [MyChatter.readLoopTrace, show (2 : Nat) = 1 + 1 from rfl,
            List.getElem?_cons_succ, List.getElem?_cons_succ, MyChatter.readLoopTrace]
          rfl
    · -- p = q + 2
      have hdrop : (MyChatter.readLoopTrace (n + 1)).drop (q + 2)
          = (MyChatter.readLoopTrace n).drop q := by
        rw [MyChatter.readLoopTrace]
        rfl
      rw [hdrop]
      refine ih q (fun i hi hget => ?_)
      have := hset (i + 2) (by simp [MyChatter.readLoopTrace]; omega) ?_
      · omega
      · rw [MyChatter.readLoopTrace, show i + 2 = (i + 1) + 1 from rfl,
          List.getElem?_cons_succ, List.getElem?_cons_succ]
        exact hget

/-- Witness for C9: one full iteration (`n = 1`), flag cleared between the
iteration's check and its read (`p = 1`): one further read, one release. -/
theorem c9_shutdown_witness :
    ((MyChatter.readLoopTrace 1).drop 1).count MyChatter.LoopEvent.brokerRead ≤ 1 ∧
    (MyChatter.readLoopTrace 1).count MyChatter.LoopEvent.releaseReader = 1 ∧
    (MyChatter.readLoopTrace 1).getLast? = some .releaseReader :=
  c9_shutdown 1 1 (by decide)

/-- C10: Implicit outbound normalization — each write cycle publishes
`strip().lower()` of the console line wrapped in the envelope (skipping the
publish entirely when the normalized line is empty), so every published
message text is a fixed point of the strip-and-lower normalization. -/
theorem c10_outbound_normalization (id line : String) :
    (pyNormalize line = "" → MyChatter.writeCycle id line = none) ∧
    (pyNormalize line ≠ "" →
      MyChatter.writeCycle id line = some (MyWriter.formatMessage id (pyNormalize line)) ∧
      pyNormalize (pyNormalize line) = pyNormalize line) := by
  constructor
  · intro h
    simp [MyChatter.writeCycle, h]
  · intro h
    exact ⟨by simp [MyChatter.writeCycle, h], pyNormalize_idem line⟩

/-- Witness for C10: the line `"  Hello  "` is published as `"hello"`, a
normalization fixed point. -/
theorem c10_outbound_normalization_witness :
    MyChatter.writeCycle "tim" "  Hello  "
      = some (MyWriter.formatMessage "tim" (pyNormalize "  Hello  ")) ∧
    pyNormalize (pyNormalize "  Hello  ") = pyNormalize "  Hello  " :=
  (c10_outbound_normalization "tim" "  Hello  ").2 (by decide)

theorem hexDigToNat_hexDigit : ∀ n, n < 16 → hexDigToNat (hexDigit n) = some n := by decide

theorem parseStrBody_quote (r : List Char) : parseStrBody ('"' :: r) = some ([], r) := by
  rw [parseStrBody.eq_def]
  simp

theorem parseStrBody_esc (e : Char) (r : List Char) (he : ¬ e = 'u') :
    parseStrBody ('\\' :: e :: r) =
      match unescChar e, parseStrBody r with
      | some u, some (s, x) => some (u :: s, x)
      | _, _ => none := by
  rw [parseStrBody.eq_def]
  simp [he]

theorem parseStrBody_escU (h1 h2 h3 h4 : Char) (r : List Char) :
    parseStrBody ('\\' :: 'u' :: h1 :: h2 :: h3 :: h4 :: r) =
      match hex4 h1 h2 h3 h4, parseStrBody r with
      | some n, some (s, x) => some (Char.ofNat n :: s, x)
      | _, _ => none := by
  rw [parseStrBody.eq_def]
  simp

theorem parseStrBody_plain (c : Char) (r : List Char) (h1 : ¬ c = '"') (h2 : ¬ c = '\\')
    (h3 : ¬ c.toNat < 32) :
    parseStrBody (c :: r) =
      match parseStrBody r with
      | some (s, x) => some (c :: s, x)
      | none => none := by
  rw [parseStrBody.eq_def]
  simp [h1, h2, h3]

theorem parseStrBody_escape (cs rest : List Char) :
    parseStrBody (jsonEscape cs ++ '"' :: rest) = some (cs, rest) := by
  induction cs with
  | nil =>
    show parseStrBody ('"' :: rest) = some ([], rest)
    exact parseStrBody_quote rest
  | cons c cs ih =>
    rw [show jsonEscape (c :: cs) = escChar c ++ jsonEscape cs from rfl, List.append_assoc]
    by_cases h1 : c = '"'
    · subst h1
      rw [show escChar '"' = ['\\', '"'] from rfl]
      rw [show (['\\', '"'] : List Char) ++ (jsonEscape cs ++ '"' :: rest)
        = '\\' :: '"' :: (jsonEscape cs ++ '"' :: rest) from rfl]
      rw [parseStrBody_esc _ _ (by decide), ih]
      simp [unescChar]
    · by_cases h2 : c = '\\'
      · subst h2
        rw [show escChar '\\' = ['\\', '\\'] from rfl]
        rw [show (['\\', '\\'] : List Char) ++ (jsonEscape cs ++ '"' :: rest)
          = '\\' :: '\\' :: (jsonEscape cs ++ '"' :: rest) from rfl]
        rw [parseStrBody_esc _ _ (by decide), ih]
        simp [unescChar]
      · by_cases h3 : c = '\n'
        · subst h3
          rw [show escChar '\n' = ['\\', 'n'] from rfl]
          rw [show (['\\', 'n'] : List Char) ++ (jsonEscape cs ++ '"' :: rest)
            = '\\' :: 'n' :: (jsonEscape cs ++ '"' :: rest) from rfl]
          rw [parseStrBody_esc _ _ (by decide), ih]
          simp [unescChar]
        · by_cases h4 : c = '\t'
          · subst h4
            rw [show escChar '\t' = ['\\', 't'] from rfl]
            rw [show (['\\', 't'] : List Char) ++ (jsonEscape cs ++ '"' :: rest)
              = '\\' :: 't' :: (jsonEscape cs ++ '"' :: rest) from rfl]
            rw [parseStrBody_esc _ _ (by decide), ih]
            simp [unescChar]
          · by_cases h5 : c = '\r'
            · subst h5
              rw [show escChar '\r' = ['\\', 'r'] from rfl]
              rw [show (['\\', 'r'] : List Char) ++ (jsonEscape cs ++ '"' :: rest)
                = '\\' :: 'r' :: (jsonEscape cs ++ '"' :: rest) from rfl]
              rw [parseStrBody_esc _ _ (by decide), ih]
              simp [unescChar]
            · by_cases h6 : c = '\x08'
              · subst h6
                rw [show escChar '\x08' = ['\\', 'b'] from rfl]
                rw [show (['\\', 'b'] : List Char) ++ (jsonEscape cs ++ '"' :: rest)
                  = '\\' :: 'b' :: (jsonEscape cs ++ '"' :: rest) from rfl]
                rw [parseStrBody_esc _ _ (by decide), ih]
                simp [unescChar]
              · by_cases h7 : c = '\x0c'
                · subst h7
                  rw [show escChar '\x0c' = ['\\', 'f'] from rfl]
                  rw [show (['\\', 'f'] : List Char) ++ (jsonEscape cs ++ '"' :: rest)
                    = '\\' :: 'f' :: (jsonEscape cs ++ '"' :: rest) from rfl]
                  rw [parseStrBody_esc _ _ (by decide), ih]
                  simp [unescChar]
                · by_cases h8 : c.toNat < 32
                  · have hesc : escChar c = ['\\', 'u', '0', '0',
                        hexDigit (c.toNat / 16), hexDigit (c.toNat % 16)] := by
                      unfold escChar
                      rw [if_neg h1, if_neg h2, if_neg h3, if_neg h4, if_neg h5, if_neg h6,
                        if_neg h7, if_pos h8]
                    rw [hesc]
                    rw [List.cons_append, List.cons_append, List.cons_append, List.cons_append,
                      List.cons_append, List.cons_append, List.nil_append]
                    rw [parseStrBody_escU, ih]
                    have hd1 := hexDigToNat_hexDigit (c.toNat / 16) (by omega)
                    have hd2 := hexDigToNat_hexDigit (c.toNat % 16) (by omega)
                    simp [hex4, hd1, hd2]
                    simp [show hexDigToNat '0' = some 0 from rfl]
                    have hc := Char.ofNat_toNat c
                    conv_rhs => rw [← hc]
                    congr 1
                    omega
                  · have hesc : escChar c = [c] := by
                      unfold escChar
                      rw [if_neg h1, if_neg h2, if_neg h3, if_neg h4, if_neg h5, if_neg h6,
                        if_neg h7, if_neg h8]
                    rw [hesc, List.cons_append, List.nil_append]
                    rw [parseStrBody_plain c _ h1 h2 h8, ih]

theorem skipWs_cons_neg {c : Char} (h : isJsonWs c = false) (l : List Char) :
    skipWs (c :: l) = c :: l := by
  simp [skipWs, List.dropWhile_cons, h]

theorem skipWs_space (l : List Char) : skipWs (' ' :: l) = skipWs l := by
  simp [skipWs, List.dropWhile_cons, isJsonWs]

theorem parseValue_quote_step (f : Nat) (r : List Char) :
    parseValue (f + 1) ('"' :: r) =
      match parseStrBody r with
      | some (sv, x) => some (.str (String.mk sv), x)
      | none => none := by
  rw [parseValue.eq_def]
  simp

theorem parseValue_obj_quote (f : Nat) (r : List Char) :
    parseValue (f + 1) ('\x7b' :: '"' :: r) =
      match parseMembers f ('"' :: r) with
      | some (kvs, x) => some (.obj kvs, x)
      | none => none := by
  rw [parseValue.eq_def]
  simp [skipWs, List.dropWhile_cons, isJsonWs]

theorem parseMembers_key (f : Nat) (r : List Char) :
    parseMembers (f + 1) ('"' :: r) =
      match parseStrBody r with
      | some (k, r1) =>
        (match skipWs r1 with
         | [] => none
         | d :: r2 =>
           if d = ':' then
             match parseValue f (skipWs r2) with
             | some (v, r3) =>
               (match skipWs r3 with
                | [] => none
                | e :: r4 =>
                  if e = ',' then
                    match parseMembers f (skipWs r4) with
                    | some (kvs, r5) => some ((String.mk k, v) :: kvs, r5)
                    | none => none
                  else if e = '\x7d' then some ([(String.mk k, v)], r4)
                  else none)
             | none => none
           else none)
      | none => none := by
  rw [parseMembers.eq_def]
  simp

theorem parseValue_strLit (f : Nat) (cs X : List Char) :
    parseValue (f + 1) ('"' :: (jsonEscape cs ++ '"' :: X)) = some (.str (String.mk cs), X) := by
  rw [parseValue_quote_step, parseStrBody_escape]

theorem parseStrBody_senderKey (T : List Char) :
    parseStrBody ('s' :: 'e' :: 'n' :: 'd' :: 'e' :: 'r' :: '"' ::T) = some (['s','e','n','d','e','r'], T) :=
  parseStrBody_escape ['s','e','n','d','e','r'] T

theorem parseStrBody_messageKey (T : List Char) :
    parseStrBody ('m' :: 'e' :: 's' :: 's' :: 'a' :: 'g' :: 'e' :: '"' ::T)
      = some (['m','e','s','s','a','g','e'], T) :=
  parseStrBody_escape ['m','e','s','s','a','g','e'] T

theorem parseMembers_messageMember (f : Nat) (cs X : List Char) :
    parseMembers (f + 2) ('"' :: 'm' :: 'e' :: 's' :: 's' :: 'a' :: 'g' :: 'e' :: '"' :: ':' :: ' ' :: '"'
        :: (jsonEscape cs ++ '"' :: '\x7d' :: X))
      = some ([("message", .str (String.mk cs))], X) := by
  rw [show f + 2 = (f + 1) + 1 from rfl, parseMembers_key, parseStrBody_messageKey]
  have hv := parseValue_strLit f cs ('\x7d' :: X)
  simp [skipWs, List.dropWhile_cons, isJsonWs, hv,
    show String.mk ['m','e','s','s','a','g','e'] = "message" from rfl]

theorem parseMembers_senderChain (f : Nat) (s m X : List Char) :
    parseMembers (f + 3) ('"' :: 's' :: 'e' :: 'n' :: 'd' :: 'e' :: 'r' :: '"' :: ':' :: ' ' :: '"'
        :: (jsonEscape s ++ '"' :: ',' :: ' ' :: '"'
          :: 'm' :: 'e' :: 's' :: 's' :: 'a' :: 'g' :: 'e' :: '"' :: ':' :: ' ' :: '"'
          :: (jsonEscape m ++ '"' :: '\x7d' :: X)))
      = some ([("sender", .str (String.mk s)), ("message", .str (String.mk m))], X) := by
  rw [show f + 3 = (f + 2) + 1 from rfl, parseMembers_key, parseStrBody_senderKey]
  have hv := parseValue_strLit (f + 1) s (',' :: ' ' :: '"'
    :: 'm' :: 'e' :: 's' :: 's' :: 'a' :: 'g' :: 'e' :: '"' :: ':' :: ' ' :: '"'
    :: (jsonEscape m ++ '"' :: '\x7d' :: X))
  have hm := parseMembers_messageMember f m X
  simp [skipWs, List.dropWhile_cons, isJsonWs, hv, hm,
    show String.mk ['s','e','n','d','e','r'] = "sender" from rfl]

theorem parseValue_encodeChars (f : Nat) (s m : List Char) :
    parseValue (f + 4) (encodeChars s m)
      = some (.obj [("sender", .str (String.mk s)), ("message", .str (String.mk m))], []) := by
  have henc : encodeChars s m = '\x7b' :: '"'
      :: 's' :: 'e' :: 'n' :: 'd' :: 'e' :: 'r' :: '"' :: ':' :: ' ' :: '"'
      :: (jsonEscape s ++ '"' :: ',' :: ' ' :: '"'
        :: 'm' :: 'e' :: 's' :: 's' :: 'a' :: 'g' :: 'e' :: '"' :: ':' :: ' ' :: '"'
        :: (jsonEscape m ++ '"' :: '\x7d' :: [])) := by
    simp [encodeChars, senderKeyChars, messageKeyChars]
  rw [henc, show f + 4 = (f + 3) + 1 from rfl, parseValue_obj_quote,
    parseMembers_senderChain f s m []]

theorem toLower_hexDigit : ∀ n, n < 16 → Char.toLower (hexDigit n) = hexDigit n := by decide

theorem escChar_lower_fixed {c : Char} (h : Char.toLower c = c) :
    List.map Char.toLower (escChar c) = escChar c := by
  unfold escChar
  split_ifs with h1 h2 h3 h4 h5 h6 h7 h8
  · decide
  · decide
  · decide
  · decide
  · decide
  · decide
  · decide
  · simp [toLower_hexDigit (c.toNat / 16) (by omega), toLower_hexDigit (c.toNat % 16) (by omega),
      show Char.toLower '\\' = '\\' from rfl, show Char.toLower 'u' = 'u' from rfl,
      show Char.toLower '0' = '0' from rfl]
  · simp [h]

theorem map_toLower_jsonEscape_fixed {l : List Char} (h : ∀ c ∈ l, Char.toLower c = c) :
    List.map Char.toLower (jsonEscape l) = jsonEscape l := by
  induction l with
  | nil => rfl
  | cons c cs ih =>
    rw [show jsonEscape (c :: cs) = escChar c ++ jsonEscape cs from rfl, List.map_append,
      escChar_lower_fixed (h c (by simp)), ih (fun d hd => h d (by simp [hd]))]

theorem pyLower_encodeChars {s m : List Char} (hs : ∀ c ∈ s, Char.toLower c = c)
    (hm : ∀ c ∈ m, Char.toLower c = c) :
    pyLower (encodeChars s m) = encodeChars s m := by
  show List.map Char.toLower (encodeChars s m) = encodeChars s m
  rw [encodeChars]
  simp [List.map_append, show Char.toLower '\x7b' = '\x7b' from rfl,
    show List.map Char.toLower senderKeyChars = senderKeyChars from by decide,
    show List.map Char.toLower messageKeyChars = messageKeyChars from by decide,
    show List.map Char.toLower (['"', '\x7d'] : List Char) = ['"', '\x7d'] from by decide,
    map_toLower_jsonEscape_fixed hs, map_toLower_jsonEscape_fixed hm]

theorem pyStrip_encodeChars (s m : List Char) : pyStrip (encodeChars s m) = encodeChars s m := by
  have hsplit : encodeChars s m = ('\x7b' :: senderKeyChars ++ jsonEscape s ++ messageKeyChars
      ++ jsonEscape m ++ ['"']) ++ ['\x7d'] := by
    simp [encodeChars]
  have h1 : (encodeChars s m).dropWhile isPyWs = encodeChars s m := by
    rw [encodeChars]
    rw [show ('\x7b' :: senderKeyChars ++ jsonEscape s ++ messageKeyChars ++ jsonEscape m
      ++ ['"', '\x7d']).dropWhile isPyWs
      = if isPyWs '\x7b' then (senderKeyChars ++ jsonEscape s ++ messageKeyChars ++ jsonEscape m
        ++ ['"', '\x7d']).dropWhile isPyWs
        else '\x7b' :: senderKeyChars ++ jsonEscape s ++ messageKeyChars ++ jsonEscape m
        ++ ['"', '\x7d'] from List.dropWhile_cons]
    rw [if_neg (by decide)]
  have h2 : (encodeChars s m).reverse.dropWhile isPyWs = (encodeChars s m).reverse := by
    rw [hsplit, List.reverse_append]
    simp [List.dropWhile_cons, isPyWs]
  unfold pyStrip
  rw [h1, h2, List.reverse_reverse]

theorem jsonLoads_encode (s m : List Char) :
    jsonLoads (String.mk (encodeChars s m))
      = some (.obj [("sender", .str (String.mk s)), ("message", .str (String.mk m))]) := by
  unfold jsonLoads
  have hskip : skipWs (encodeChars s m) = encodeChars s m := by
    rw [encodeChars]
    exact skipWs_cons_neg (by decide) _
  have hlen : 3 ≤ (encodeChars s m).length := by
    rw [encodeChars]
    simp [senderKeyChars]
  obtain ⟨f, hf⟩ : ∃ f, (encodeChars s m).length + 1 = f + 4 :=
    ⟨(encodeChars s m).length - 3, by omega⟩
  rw [show (String.mk (encodeChars s m)).data = encodeChars s m from rfl, hskip, hf,
    parseValue_encodeChars]
  simp [skipWs]

theorem decodeEnvelope_encode (s m : List Char) (hs : ∀ c ∈ s, Char.toLower c = c)
    (hm : ∀ c ∈ m, Char.toLower c = c) :
    MyReader.decodeEnvelope [String.mk (encodeChars s m)]
      = .ok (Message.mk (String.mk s) (String.mk m)) := by
  unfold MyReader.decodeEnvelope
  rw [show String.join [String.mk (encodeChars s m)] = String.mk (encodeChars s m) from rfl]
  rw [show pyNormalize (String.mk (encodeChars s m))
    = String.mk (pyLower (pyStrip (encodeChars s m))) from rfl]
  rw [pyStrip_encodeChars, pyLower_encodeChars hs hm]
  simp only [jsonLoads_encode]
  simp [Json.getStr, lookupLast]

/-- C1 counterexample: the round-trip fails as stated, because the Inbound
Processor lower-cases the whole received text before parsing: encoding
`("Alex", "Hi")` and decoding yields `("alex", "hi")`, not `("Alex", "Hi")`. -/
theorem c1_roundtrip_counterexample :
    MyReader.decodeEnvelope [MyWriter.formatMessage "Alex" "Hi"] = .ok (Message.mk "alex" "hi") ∧
    MyReader.decodeEnvelope [MyWriter.formatMessage "Alex" "Hi"] ≠ .ok (Message.mk "Alex" "Hi") := by
  refine ⟨by rfl, fun h => ?_⟩
  rw [show MyReader.decodeEnvelope [MyWriter.formatMessage "Alex" "Hi"]
    = .ok (Message.mk "alex" "hi") from rfl] at h
  simp at h

/-- C1 (amended): the envelope codec round-trips for all non-empty sender
and message strings that are fixed points of lower-casing (decode
lower-cases the whole batch, so only such strings survive unchanged). -/
theorem c1_roundtrip_lowercase (sender message : String)
    (_hs1 : sender ≠ "") (_hm1 : message ≠ "")
    (hs : ∀ c ∈ sender.data, Char.toLower c = c)
    (hm : ∀ c ∈ message.data, Char.toLower c = c) :
    MyReader.decodeEnvelope [MyWriter.formatMessage sender message]
      = .ok (Message.mk sender message) :=
  decodeEnvelope_encode sender.data message.data hs hm

/-- Witness for C1 (amended): `("alex", "hi tim")` round-trips. -/
theorem c1_roundtrip_lowercase_witness :
    MyReader.decodeEnvelope [MyWriter.formatMessage "alex" "hi tim"]
      = .ok (Message.mk "alex" "hi tim") :=
  c1_roundtrip_lowercase "alex" "hi tim" (by decide) (by decide) (by decide) (by decide)
